import Mathlib

/- Shallow embedding of the fund-vault program (programs/vaults/src).

   Machine integers (`u64`, `u128`) are modelled as `Nat`; a Rust
   `as u64` narrowing of a `u128` intermediate is `% 2 ^ 64`, written
   `u64cast`.  `checked_add`/`checked_sub` are modelled as explicit
   guards returning the program's `MathOverflow`/`MathUnderflow`
   errors; `saturating_sub` is `Nat` subtraction, which already
   truncates at zero.  Unix timestamps (`i64`) are `Int`.

   Each instruction handler becomes a function
   `World -> ... -> Except FundError World` over an explicit state of
   one fund, its vault USDC account, one investor's USDC and share
   token accounts, the manager fee account, the share mint supply and
   the fund's withdrawal-request records (indexed by the per-fund
   request counter; a closed record is `none`).  An `Except.error`
   models an aborted transaction: no state change at all. -/

def U64 : Nat := 2 ^ 64

def U32 : Nat := 2 ^ 32

/-- Narrowing `as u64` cast applied to a `u128` intermediate. -/
def u64cast (n : Nat) : Nat := n % U64

/-- Fund lifecycle stages (state.rs `FundStage`). -/
inductive FundStage where
  | Open
  | Trading
  | Settlement
  | Closed
deriving DecidableEq, Repr

/-- Withdrawal request status (state.rs `RequestStatus`). -/
inductive RequestStatus where
  | Pending
  | PartiallyFilled
  | Completed
  | Cancelled
deriving DecidableEq, Repr

/-- Error codes of errors.rs `FundError` (the ones the modelled paths can
raise), plus `TokenInsufficientFunds` for a failing SPL-token transfer. -/
inductive FundError where
  | InvalidStage
  | DepositsNotAllowed
  | WithdrawalsNotAllowed
  | TradingNotAllowed
  | DepositFeeExceedsMax
  | PerfFeeExceedsMax
  | TradingNotStarted
  | TradingNotEnded
  | InvalidTradingPeriod
  | TradingStartInPast
  | ZeroDeposit
  | ZeroWithdrawal
  | InsufficientShares
  | InsufficientVaultBalance
  | MathOverflow
  | MathUnderflow
  | NameEmpty
  | NameTooLong
  | SymbolEmpty
  | SymbolTooLong
  | InsufficientBuffer
  | WithdrawalRequestNotFound
  | WithdrawalRequestInactive
  | CannotCancelPartialWithdrawal
  | EpochNotReady
  | TokenInsufficientFunds
deriving DecidableEq, Repr

/-- state.rs `ProtocolConfig` (pubkeys are opaque `Nat` identifiers). -/
structure ProtocolConfig where
  admin : Nat
  max_deposit_fee_bps : Nat
  max_perf_fee_bps : Nat
  max_early_exit_fee_bps : Nat
  min_buffer_bps : Nat
  default_epoch_interval_secs : Int
  allowed_dflow_program : Nat
  usdc_mint : Nat
  protocol_fee_recipient : Nat
deriving DecidableEq, Repr

/-- state.rs `FundState` (accounting fields; pubkey wiring and PDA bumps
are carried by the execution environment and omitted). -/
structure FundState where
  deposit_fee_bps : Nat
  perf_fee_bps : Nat
  early_exit_fee_bps : Nat
  liquidity_buffer_bps : Nat
  trading_start_ts : Int
  trading_end_ts : Int
  stage : FundStage
  pending_withdrawal_shares : Nat
  last_epoch_ts : Int
  epoch_interval_secs : Int
  pending_request_count : Nat
  initial_aum_usdc : Nat
  perf_fee_due_usdc : Nat
  perf_fee_paid : Bool
  total_deposited : Nat
  total_shares : Nat
deriving DecidableEq, Repr

/-- state.rs `FundState::shares_for_deposit`. -/
def FundState.shares_for_deposit (f : FundState) (net_amount vault_balance : Nat) : Nat :=
  if f.total_shares = 0 then net_amount
  else u64cast (net_amount * f.total_shares / vault_balance)

/-- state.rs `FundState::usdc_for_shares`. -/
def FundState.usdc_for_shares (f : FundState) (shares vault_balance : Nat) : Nat :=
  if f.total_shares = 0 then 0
  else u64cast (shares * vault_balance / f.total_shares)

/-- state.rs `FundState::calculate_deposit_fee`. -/
def FundState.calculate_deposit_fee (f : FundState) (amount : Nat) : Nat :=
  u64cast (amount * f.deposit_fee_bps / 10000)

/-- state.rs `FundState::calculate_perf_fee`. -/
def FundState.calculate_perf_fee (f : FundState) (profit : Nat) : Nat :=
  u64cast (profit * f.perf_fee_bps / 10000)

/-- state.rs `FundState::calculate_early_exit_fee`. -/
def FundState.calculate_early_exit_fee (f : FundState) (amount : Nat) : Nat :=
  u64cast (amount * f.early_exit_fee_bps / 10000)

/-- state.rs `FundState::min_buffer_amount`. -/
def FundState.min_buffer_amount (f : FundState) (nav : Nat) : Nat :=
  u64cast (nav * f.liquidity_buffer_bps / 10000)

/-- state.rs `WithdrawalRequest` (fund/investor pubkeys and the PDA bump
are carried by the keyed-storage index and omitted). -/
structure WithdrawalRequest where
  shares_requested : Nat
  shares_filled : Nat
  usdc_received : Nat
  nav_per_share_at_request : Nat
  requested_at : Int
  status : RequestStatus
deriving DecidableEq, Repr

/-- state.rs `WithdrawalRequest::shares_remaining` (`saturating_sub`). -/
def WithdrawalRequest.shares_remaining (r : WithdrawalRequest) : Nat :=
  r.shares_requested - r.shares_filled

/-- The state an instruction touches: one fund, its vault USDC token
account, one investor's USDC and share token accounts, the manager fee
account, the share-mint supply and the fund's withdrawal-request
records.  `requests.get? i` is the record at request index `i`
(`some none` once closed). -/
structure World where
  fund : FundState
  vault_usdc : Nat
  investor_usdc : Nat
  investor_shares : Nat
  manager_fee_usdc : Nat
  share_supply : Nat
  requests : List (Option WithdrawalRequest)
deriving DecidableEq, Repr

/-- instructions/deposit.rs `handler` (stage gate from the `Deposit`
account constraint). -/
def deposit (s : World) (amount : Nat) : Except FundError World :=
  if s.fund.stage ≠ FundStage.Open then .error .DepositsNotAllowed
  else if amount = 0 then .error .ZeroDeposit
  else
    let fee := s.fund.calculate_deposit_fee amount
    if amount < fee then .error .MathUnderflow
    else
      let net := amount - fee
      if s.investor_usdc < amount then .error .TokenInsufficientFunds
      else
        let shares := s.fund.shares_for_deposit net s.vault_usdc
        if s.fund.total_shares + shares < U64 then
          if s.fund.total_deposited + amount < U64 then
            .ok { s with
              investor_usdc := s.investor_usdc - amount,
              manager_fee_usdc := s.manager_fee_usdc + fee,
              vault_usdc := s.vault_usdc + net,
              investor_shares := s.investor_shares + shares,
              share_supply := s.share_supply + shares,
              fund := { s.fund with
                total_shares := s.fund.total_shares + shares,
                total_deposited := s.fund.total_deposited + amount } }
          else .error .MathOverflow
        else .error .MathOverflow

/-- instructions/withdraw_open.rs `handler`. -/
def withdraw_open (s : World) (shares : Nat) : Except FundError World :=
  if s.fund.stage ≠ FundStage.Open then .error .WithdrawalsNotAllowed
  else if shares = 0 then .error .ZeroWithdrawal
  else if s.investor_shares < shares then .error .InsufficientShares
  else
    let usdc_amount := s.fund.usdc_for_shares shares s.vault_usdc
    if s.vault_usdc < usdc_amount then .error .InsufficientVaultBalance
    else if s.fund.total_shares < shares then .error .MathUnderflow
    else
      .ok { s with
        investor_shares := s.investor_shares - shares,
        share_supply := s.share_supply - shares,
        vault_usdc := s.vault_usdc - usdc_amount,
        investor_usdc := s.investor_usdc + usdc_amount,
        fund := { s.fund with total_shares := s.fund.total_shares - shares } }

/-- instructions/start_trading.rs `handler` (stage gate from the
`StartTrading` account constraint). -/
def start_trading (s : World) (now : Int) : Except FundError World :=
  if s.fund.stage ≠ FundStage.Open then .error .InvalidStage
  else if now < s.fund.trading_start_ts then .error .TradingNotStarted
  else
    .ok { s with fund := { s.fund with
      initial_aum_usdc := s.vault_usdc,
      stage := FundStage.Trading } }

/-- instructions/execute_trade.rs `handler`: stub, validates the stage
and a positive amount, moves no funds. -/
def execute_trade (s : World) (amount : Nat) : Except FundError World :=
  if s.fund.stage ≠ FundStage.Trading then .error .TradingNotAllowed
  else if amount = 0 then .error .ZeroDeposit
  else .ok s

/-- instructions/withdraw_early.rs `handler` (stage gate from the
`WithdrawEarly` account constraint). -/
def withdraw_early (s : World) (shares : Nat) : Except FundError World :=
  if s.fund.stage ≠ FundStage.Trading then .error .InvalidStage
  else if shares = 0 then .error .ZeroWithdrawal
  else if s.investor_shares < shares then .error .InsufficientShares
  else
    let share_value := s.fund.usdc_for_shares shares s.vault_usdc
    let exit_fee := s.fund.calculate_early_exit_fee share_value
    let payout := share_value - exit_fee
    let post_withdrawal_nav := s.vault_usdc - payout
    let min_buffer_needed := s.fund.min_buffer_amount post_withdrawal_nav
    if payout + min_buffer_needed ≤ s.vault_usdc then
      .ok { s with
        investor_shares := s.investor_shares - shares,
        share_supply := s.share_supply - shares,
        vault_usdc := s.vault_usdc - payout,
        investor_usdc := s.investor_usdc + payout,
        fund := { s.fund with total_shares := s.fund.total_shares - shares } }
    else .error .InsufficientBuffer

/-- The NAV per share `request_withdrawal` locks at creation time
(request_withdrawal.rs lines 67-71). -/
def lockedNav (s : World) : Nat :=
  if 0 < s.fund.total_shares then u64cast (s.vault_usdc * 1000000 / s.fund.total_shares)
  else 1000000

/-- The withdrawal-request record `request_withdrawal` creates
(request_withdrawal.rs lines 74-83). -/
def mkRequest (s : World) (now : Int) (shares : Nat) : WithdrawalRequest :=
  { shares_requested := shares, shares_filled := 0, usdc_received := 0,
    nav_per_share_at_request := lockedNav s, requested_at := now,
    status := RequestStatus.Pending }

/-- instructions/request_withdrawal.rs `handler` (stage gate from the
`RequestWithdrawal` account constraint; the new record's PDA index is
`pending_request_count`, here the append position). -/
def request_withdrawal (s : World) (now : Int) (shares : Nat) : Except FundError World :=
  if s.fund.stage ≠ FundStage.Trading then .error .InvalidStage
  else if shares = 0 then .error .ZeroWithdrawal
  else if s.investor_shares < shares then .error .InsufficientShares
  else
    let r : WithdrawalRequest := mkRequest s now shares
    if s.fund.pending_withdrawal_shares + shares < U64 then
      if s.fund.pending_request_count + 1 < U32 then
        .ok { s with
          requests := s.requests ++ [some r],
          fund := { s.fund with
            pending_withdrawal_shares := s.fund.pending_withdrawal_shares + shares,
            pending_request_count := s.fund.pending_request_count + 1 } }
      else .error .MathOverflow
    else .error .MathOverflow

/-- instructions/cancel_withdrawal.rs `handler` (the requester-owned
record and its `status == Pending` gate come from the
`CancelWithdrawal` account constraints; `close = investor` destroys
the record). -/
def cancel_withdrawal (s : World) (idx : Nat) : Except FundError World :=
  match s.requests.get? idx with
  | none => .error .WithdrawalRequestNotFound
  | some none => .error .WithdrawalRequestNotFound
  | some (some r) =>
    if r.status ≠ RequestStatus.Pending then .error .WithdrawalRequestInactive
    else if r.shares_filled ≠ 0 then .error .CannotCancelPartialWithdrawal
    else
      .ok { s with
        requests := s.requests.set idx none,
        fund := { s.fund with
          pending_withdrawal_shares :=
            s.fund.pending_withdrawal_shares - r.shares_requested } }

/-- Body of instructions/process_epoch.rs `handler_process_single`,
acting on the loaded withdrawal-request record `r` at index `idx`. -/
def process_request (s : World) (now : Int) (idx : Nat) (r : WithdrawalRequest) :
    Except FundError World :=
  if ¬ (r.status = RequestStatus.Pending ∨ r.status = RequestStatus.PartiallyFilled) then
        .error .WithdrawalRequestInactive
      else if ¬ (s.fund.last_epoch_ts + s.fund.epoch_interval_secs ≤ now
                 ∨ s.fund.stage = FundStage.Settlement) then
        .error .EpochNotReady
      else if r.shares_remaining = 0 then .error .WithdrawalRequestInactive
      else
        let usdc_per_share := r.nav_per_share_at_request
        let max_usdc_owed := u64cast (r.shares_remaining * usdc_per_share / 1000000)
        let payout := min max_usdc_owed s.vault_usdc
        let shares_to_process :=
          if 0 < usdc_per_share then u64cast (payout * 1000000 / usdc_per_share) else 0
        if payout = 0 ∨ shares_to_process = 0 then .ok s
        else
          if r.shares_filled + shares_to_process < U64 then
            if r.usdc_received + payout < U64 then
              let newFilled := r.shares_filled + shares_to_process
              let r' : WithdrawalRequest :=
                { r with
                  shares_filled := newFilled,
                  usdc_received := r.usdc_received + payout,
                  status :=
                    if r.shares_requested ≤ newFilled then RequestStatus.Completed
                    else RequestStatus.PartiallyFilled }
              .ok { s with
                vault_usdc := s.vault_usdc - payout,
                investor_usdc := s.investor_usdc + payout,
                requests := s.requests.set idx (some r'),
                fund := { s.fund with
                  total_shares := s.fund.total_shares - shares_to_process,
                  pending_withdrawal_shares :=
                    s.fund.pending_withdrawal_shares - shares_to_process,
                  last_epoch_ts := now } }
            else .error .MathOverflow
          else .error .MathOverflow

/-- instructions/process_epoch.rs `handler_process_single` (stage and
status gates from the `ProcessSingleWithdrawal` account constraints;
loading a missing or closed request account fails). -/
def process_single (s : World) (now : Int) (idx : Nat) : Except FundError World :=
  if ¬ (s.fund.stage = FundStage.Trading ∨ s.fund.stage = FundStage.Settlement) then
    .error .InvalidStage
  else
    match s.requests.get? idx with
    | none => .error .WithdrawalRequestNotFound
    | some none => .error .WithdrawalRequestNotFound
    | some (some r) => process_request s now idx r

/-- instructions/process_epoch.rs `handler` (the bare epoch trigger). -/
def trigger_epoch (s : World) (now : Int) : Except FundError World :=
  if ¬ (s.fund.stage = FundStage.Trading ∨ s.fund.stage = FundStage.Settlement) then
    .error .InvalidStage
  else if now < s.fund.last_epoch_ts + s.fund.epoch_interval_secs then .error .EpochNotReady
  else .ok { s with fund := { s.fund with last_epoch_ts := now } }

/-- instructions/end_trading.rs `handler` (stage gate from the
`EndTrading` account constraint). -/
def end_trading (s : World) (now : Int) : Except FundError World :=
  if s.fund.stage ≠ FundStage.Trading then .error .InvalidStage
  else if now < s.fund.trading_end_ts then .error .TradingNotEnded
  else .ok { s with fund := { s.fund with stage := FundStage.Settlement } }

/-- instructions/finalize_close.rs `handler` (stage gate from the
`FinalizeClose` account constraint). -/
def finalize_close (s : World) : Except FundError World :=
  if s.fund.stage ≠ FundStage.Settlement then .error .InvalidStage
  else
    let profit := if s.fund.initial_aum_usdc < s.vault_usdc
      then s.vault_usdc - s.fund.initial_aum_usdc else 0
    .ok { s with fund := { s.fund with
      perf_fee_due_usdc := s.fund.calculate_perf_fee profit,
      perf_fee_paid := false,
      stage := FundStage.Closed } }

/-- The part of instructions/redeem.rs `handler` after the lazy
performance-fee payment: the vault balance has been reloaded and the
investor's own payout is computed from it. -/
def redeem_after_fee (s : World) (shares : Nat) : Except FundError World :=
  let usdc_amount := s.fund.usdc_for_shares shares s.vault_usdc
  if s.vault_usdc < usdc_amount then .error .InsufficientVaultBalance
  else if s.fund.total_shares < shares then .error .MathUnderflow
  else
    .ok { s with
      investor_shares := s.investor_shares - shares,
      share_supply := s.share_supply - shares,
      vault_usdc := s.vault_usdc - usdc_amount,
      investor_usdc := s.investor_usdc + usdc_amount,
      fund := { s.fund with total_shares := s.fund.total_shares - shares } }

/-- instructions/redeem.rs `handler` (stage gate from the `Redeem`
account constraint): pays the performance fee on the first redemption
after `Closed`, then recomputes from the reloaded vault balance. -/
def redeem (s : World) (shares : Nat) : Except FundError World :=
  if s.fund.stage ≠ FundStage.Closed then .error .WithdrawalsNotAllowed
  else if shares = 0 then .error .ZeroWithdrawal
  else if s.investor_shares < shares then .error .InsufficientShares
  else if 0 < s.fund.perf_fee_due_usdc ∧ s.fund.perf_fee_paid = false then
    if s.vault_usdc < s.fund.perf_fee_due_usdc then .error .TokenInsufficientFunds
    else
      redeem_after_fee
        { s with
          vault_usdc := s.vault_usdc - s.fund.perf_fee_due_usdc,
          manager_fee_usdc := s.manager_fee_usdc + s.fund.perf_fee_due_usdc,
          fund := { s.fund with perf_fee_paid := true } }
        shares
  else redeem_after_fee s shares

/-- The operations of lib.rs that act on an existing fund. -/
inductive Op where
  | deposit (amount : Nat)
  | withdrawOpen (shares : Nat)
  | startTrading
  | executeTrade (amount : Nat)
  | withdrawEarly (shares : Nat)
  | requestWithdrawal (shares : Nat)
  | cancelWithdrawal (idx : Nat)
  | processSingle (idx : Nat)
  | triggerEpoch
  | endTrading
  | finalizeClose
  | redeemShares (shares : Nat)
deriving DecidableEq, Repr

/-- One instruction against the fund, under the clock value `now`. -/
def step (s : World) (now : Int) : Op → Except FundError World
  | .deposit a => deposit s a
  | .withdrawOpen sh => withdraw_open s sh
  | .startTrading => start_trading s now
  | .executeTrade a => execute_trade s a
  | .withdrawEarly sh => withdraw_early s sh
  | .requestWithdrawal sh => request_withdrawal s now sh
  | .cancelWithdrawal i => cancel_withdrawal s i
  | .processSingle i => process_single s now i
  | .triggerEpoch => trigger_epoch s now
  | .endTrading => end_trading s now
  | .finalizeClose => finalize_close s
  | .redeemShares sh => redeem s sh

/-- Apply one instruction; a failed instruction aborts atomically and
leaves the state unchanged. -/
def applyOp (s : World) (p : Int × Op) : World :=
  match step s p.1 p.2 with
  | .ok s' => s'
  | .error _ => s

/-- Run a sequence of (clock, instruction) calls. -/
def runOps (s : World) (l : List (Int × Op)) : World := l.foldl applyOp s

/-- Apply one `redeem` call; a failed call leaves the state unchanged. -/
def applyRedeem (s : World) (shares : Nat) : World :=
  match redeem s shares with
  | .ok s' => s'
  | .error _ => s

/-- Run a sequence of `redeem` calls. -/
def runRedeems (s : World) (l : List Nat) : World := l.foldl applyRedeem s

/-- All-zero `ProtocolConfig` record: Anchor `init` allocates the
account zero-filled before the handler runs. -/
def zeroedProtocolConfig : ProtocolConfig :=
  { admin := 0, max_deposit_fee_bps := 0, max_perf_fee_bps := 0,
    max_early_exit_fee_bps := 0, min_buffer_bps := 0,
    default_epoch_interval_secs := 0, allowed_dflow_program := 0,
    usdc_mint := 0, protocol_fee_recipient := 0 }

/-- instructions/initialize_protocol.rs `handler`: starting from the
zero-filled fresh account, it sets only these fields. -/
def init_protocol (admin allowed_dflow usdc_mint : Nat) : ProtocolConfig :=
  { zeroedProtocolConfig with
    admin := admin,
    max_deposit_fee_bps := 300,
    max_perf_fee_bps := 3000,
    allowed_dflow_program := allowed_dflow,
    usdc_mint := usdc_mint,
    protocol_fee_recipient := admin }

/-- instructions/create_fund.rs `handler` (name and symbol enter only
through their byte lengths). -/
def create_fund (cfg : ProtocolConfig) (now : Int) (name_len symbol_len : Nat)
    (deposit_fee_bps perf_fee_bps : Nat) (trading_start_ts trading_end_ts : Int) :
    Except FundError FundState :=
  if name_len = 0 then .error .NameEmpty
  else if 32 < name_len then .error .NameTooLong
  else if symbol_len = 0 then .error .SymbolEmpty
  else if 8 < symbol_len then .error .SymbolTooLong
  else if cfg.max_deposit_fee_bps < deposit_fee_bps then .error .DepositFeeExceedsMax
  else if cfg.max_perf_fee_bps < perf_fee_bps then .error .PerfFeeExceedsMax
  else if trading_start_ts ≤ now then .error .TradingStartInPast
  else if trading_end_ts ≤ trading_start_ts then .error .InvalidTradingPeriod
  else .ok
    { deposit_fee_bps := deposit_fee_bps, perf_fee_bps := perf_fee_bps,
      early_exit_fee_bps := 500, liquidity_buffer_bps := 1000,
      trading_start_ts := trading_start_ts, trading_end_ts := trading_end_ts,
      stage := FundStage.Open, pending_withdrawal_shares := 0,
      last_epoch_ts := 0, epoch_interval_secs := 86400,
      pending_request_count := 0, initial_aum_usdc := 0,
      perf_fee_due_usdc := 0, perf_fee_paid := false,
      total_deposited := 0, total_shares := 0 }

/-- Position of a stage in the forward order `Open, Trading, Settlement,
Closed`. -/
def stageIdx : FundStage → Nat
  | .Open => 0
  | .Trading => 1
  | .Settlement => 2
  | .Closed => 3

/-- A freshly created fund (fee 0 bps deposit, 20% performance fee,
trading window [100, 200]), as `create_fund` builds it. -/
def demoFund : FundState :=
  { deposit_fee_bps := 0, perf_fee_bps := 2000, early_exit_fee_bps := 500,
    liquidity_buffer_bps := 1000, trading_start_ts := 100, trading_end_ts := 200,
    stage := FundStage.Open, pending_withdrawal_shares := 0, last_epoch_ts := 0,
    epoch_interval_secs := 86400, pending_request_count := 0, initial_aum_usdc := 0,
    perf_fee_due_usdc := 0, perf_fee_paid := false, total_deposited := 0,
    total_shares := 0 }

/-- The world right after fund creation: an investor holding 1,000,000
USDC, an empty vault, no shares, no requests. -/
def demo0 : World :=
  { fund := demoFund, vault_usdc := 0, investor_usdc := 1000000,
    investor_shares := 0, manager_fee_usdc := 0, share_supply := 0, requests := [] }

/-- Call sequence whose final state violates
`pending_withdrawal_shares <= total_shares`: fund a 1000-share
position, enter Trading, then queue the same 1000 held shares twice. -/
def c7ops : List (Int × Op) :=
  [(0, Op.deposit 1000), (100, Op.startTrading),
   (150, Op.requestWithdrawal 1000), (151, Op.requestWithdrawal 1000)]

/-- Call sequence producing a partially filled withdrawal request:
fund 1000 shares, enter Trading, queue 600 shares at NAV 1.0, drain the
vault to 525 USDC by an early exit of 500 shares, then process the
request once the epoch elapses (525 of 600 shares filled). -/
def c8ops : List (Int × Op) :=
  [(0, Op.deposit 1000), (100, Op.startTrading),
   (150, Op.requestWithdrawal 600), (160, Op.withdrawEarly 500),
   (90000, Op.processSingle 0)]

/-- The reachable state holding the partially filled request of `c8ops`. -/
def c8state : World := runOps demo0 c8ops

/-- A fund with seven shares outstanding (NAV round-trip example). -/
def fC1 : FundState := { demoFund with total_shares := 7 }

/-- A closed fund with a 50-USDC performance fee due and unpaid. -/
def closedW : World :=
  { fund := { demoFund with
              stage := FundStage.Closed,
              total_shares := 100,
              perf_fee_due_usdc := 50 },
    vault_usdc := 1000, investor_usdc := 0, investor_shares := 100,
    manager_fee_usdc := 7, share_supply := 100, requests := [] }

/-- A pending 600-share request locked at NAV 1.0 per share. -/
def reqR : WithdrawalRequest :=
  { shares_requested := 600, shares_filled := 0, usdc_received := 0,
    nav_per_share_at_request := 1000000, requested_at := 150,
    status := RequestStatus.Pending }

/-- A Trading-stage fund with 1000 shares, 525 USDC of vault liquidity
and the queued request `reqR`. -/
def procW : World :=
  { fund := { demoFund with
              stage := FundStage.Trading,
              total_shares := 1000,
              pending_withdrawal_shares := 600 },
    vault_usdc := 525, investor_usdc := 0, investor_shares := 1000,
    manager_fee_usdc := 0, share_supply := 1000, requests := [some reqR] }

/-- The request `reqR` after one vault-limited processing round: 525
of 600 shares filled. -/
def reqDone : WithdrawalRequest :=
  { shares_requested := 600, shares_filled := 525, usdc_received := 525,
    nav_per_share_at_request := 1000000, requested_at := 150,
    status := RequestStatus.PartiallyFilled }

/-- `procW` after one processing call at time 90000. -/
def procW2 : World :=
  { fund := { deposit_fee_bps := 0, perf_fee_bps := 2000, early_exit_fee_bps := 500,
              liquidity_buffer_bps := 1000, trading_start_ts := 100, trading_end_ts := 200,
              stage := FundStage.Trading, pending_withdrawal_shares := 75,
              last_epoch_ts := 90000, epoch_interval_secs := 86400,
              pending_request_count := 0, initial_aum_usdc := 0, perf_fee_due_usdc := 0,
              perf_fee_paid := false, total_deposited := 0, total_shares := 475 },
    vault_usdc := 0, investor_usdc := 525, investor_shares := 1000,
    manager_fee_usdc := 0, share_supply := 1000, requests := [some reqDone] }

/-- A Trading-stage fund with 1000 shares and 1000 USDC in the vault. -/
def earlyW : World :=
  { fund := { demoFund with stage := FundStage.Trading, total_shares := 1000 },
    vault_usdc := 1000, investor_usdc := 0, investor_shares := 1000,
    manager_fee_usdc := 0, share_supply := 1000, requests := [] }

/-- Run a sequence of (clock, instruction) calls, failing on the first
instruction that fails (used to certify that a demonstration run is
reachable without any aborted call). -/
def runOpsE (s : World) : List (Int × Op) → Except FundError World
  | [] => .ok s
  | p :: rest =>
    match step s p.1 p.2 with
    | .ok s' => runOpsE s' rest
    | .error e => .error e

/-- The fund `create_fund` builds for deposit fee 100 bps, performance
fee 2000 bps and trading window [10, 20]. -/
def createdFund : FundState :=
  { deposit_fee_bps := 100, perf_fee_bps := 2000, early_exit_fee_bps := 500,
    liquidity_buffer_bps := 1000, trading_start_ts := 10, trading_end_ts := 20,
    stage := FundStage.Open, pending_withdrawal_shares := 0, last_epoch_ts := 0,
    epoch_interval_secs := 86400, pending_request_count := 0, initial_aum_usdc := 0,
    perf_fee_due_usdc := 0, perf_fee_paid := false, total_deposited := 0,
    total_shares := 0 }

theorem u64cast_le (n : Nat) : u64cast n ≤ n := Nat.mod_le n U64

theorem u64cast_eq_of_lt {n : Nat} (h : n < U64) : u64cast n = n := Nat.mod_eq_of_lt h

/-- Floor division round trip never gains: converting an amount to the
other unit and back, with the same positive rate denominator, can only
lose to truncation. -/
theorem div_roundtrip_le (x t v : Nat) (ht : 0 < t) : x * t / v * v / t ≤ x := by
  calc x * t / v * v / t ≤ x * t / t :=
        Nat.div_le_div_right (Nat.div_mul_le_self (x * t) v)
    _ = x := Nat.mul_div_cancel x ht

/-- Back-converting a capped payout at the same locked rate yields at
most the shares that produced the cap. -/
theorem payout_shares_le {payout sr nav m : Nat} (hnav : 0 < nav)
    (hp : payout ≤ sr * nav / m) : payout * m / nav ≤ sr := by
  have h1 : payout * m ≤ sr * nav :=
    Nat.le_trans (Nat.mul_le_mul_right m hp) (Nat.div_mul_le_self (sr * nav) m)
  calc payout * m / nav ≤ sr * nav / nav := Nat.div_le_div_right h1
    _ = sr := Nat.mul_div_cancel sr hnav

theorem deposit_ok_inv {s : World} {a : Nat} {s' : World} (h : deposit s a = .ok s') :
    s'.fund.stage = s.fund.stage ∧ s'.requests = s.requests := by
  unfold deposit at h
  dsimp only at h
  repeat' split at h
  any_goals exact Except.noConfusion h
  injection h with h
  subst h
  exact ⟨rfl, rfl⟩

theorem withdraw_open_ok_inv {s : World} {a : Nat} {s' : World}
    (h : withdraw_open s a = .ok s') :
    s'.fund.stage = s.fund.stage ∧ s'.requests = s.requests := by
  unfold withdraw_open at h
  dsimp only at h
  repeat' split at h
  any_goals exact Except.noConfusion h
  injection h with h
  subst h
  exact ⟨rfl, rfl⟩

theorem execute_trade_ok_inv {s : World} {a : Nat} {s' : World}
    (h : execute_trade s a = .ok s') : s' = s := by
  unfold execute_trade at h
  repeat' split at h
  any_goals exact Except.noConfusion h
  injection h with h
  exact h.symm

theorem withdraw_early_ok_inv {s : World} {a : Nat} {s' : World}
    (h : withdraw_early s a = .ok s') :
    s'.fund.stage = s.fund.stage ∧ s'.requests = s.requests := by
  unfold withdraw_early at h
  dsimp only at h
  repeat' split at h
  any_goals exact Except.noConfusion h
  injection h with h
  subst h
  exact ⟨rfl, rfl⟩

theorem trigger_epoch_ok_inv {s : World} {now : Int} {s' : World}
    (h : trigger_epoch s now = .ok s') :
    s'.fund.stage = s.fund.stage ∧ s'.requests = s.requests := by
  unfold trigger_epoch at h
  repeat' split at h
  any_goals exact Except.noConfusion h
  injection h with h
  subst h
  exact ⟨rfl, rfl⟩

theorem request_withdrawal_ok_inv {s : World} {now : Int} {shares : Nat} {s' : World}
    (h : request_withdrawal s now shares = .ok s') :
    s'.fund.stage = s.fund.stage
    ∧ s'.fund.pending_withdrawal_shares = s.fund.pending_withdrawal_shares + shares
    ∧ s'.fund.pending_request_count = s.fund.pending_request_count + 1
    ∧ s'.requests = s.requests ++ [some (mkRequest s now shares)] := by
  unfold request_withdrawal at h
  dsimp only at h
  repeat' split at h
  any_goals exact Except.noConfusion h
  injection h with h
  subst h
  exact ⟨rfl, rfl, rfl, rfl⟩

theorem cancel_withdrawal_ok_inv {s : World} {idx : Nat} {s' : World}
    (h : cancel_withdrawal s idx = .ok s') :
    s'.fund.stage = s.fund.stage
    ∧ ∃ i, s'.requests = s.requests.set i none := by
  unfold cancel_withdrawal at h
  repeat' split at h
  any_goals exact Except.noConfusion h
  injection h with h
  subst h
  exact ⟨rfl, idx, rfl⟩

theorem start_trading_ok_inv {s : World} {now : Int} {s' : World}
    (h : start_trading s now = .ok s') :
    s.fund.stage = FundStage.Open ∧ s'.fund.stage = FundStage.Trading
    ∧ s.fund.trading_start_ts ≤ now ∧ s'.requests = s.requests := by
  unfold start_trading at h
  repeat' split at h
  any_goals exact Except.noConfusion h
  injection h with h
  subst h
  exact ⟨not_not.mp ‹¬s.fund.stage ≠ FundStage.Open›, rfl, Int.not_lt.mp ‹¬now < s.fund.trading_start_ts›, rfl⟩

theorem start_trading_err_inv {s : World} {now : Int} {e : FundError}
    (h : start_trading s now = .error e) :
    (s.fund.stage ≠ FundStage.Open ∧ e = FundError.InvalidStage)
    ∨ (s.fund.stage = FundStage.Open ∧ now < s.fund.trading_start_ts
        ∧ e = FundError.TradingNotStarted) := by
  unfold start_trading at h
  repeat' split at h
  any_goals exact Except.noConfusion h
  · injection h with h
    exact Or.inl ⟨‹_›, h.symm⟩
  · injection h with h
    exact Or.inr ⟨not_not.mp ‹¬s.fund.stage ≠ FundStage.Open›, ‹_›, h.symm⟩

theorem end_trading_ok_inv {s : World} {now : Int} {s' : World}
    (h : end_trading s now = .ok s') :
    s.fund.stage = FundStage.Trading ∧ s'.fund.stage = FundStage.Settlement
    ∧ s.fund.trading_end_ts ≤ now ∧ s'.requests = s.requests := by
  unfold end_trading at h
  repeat' split at h
  any_goals exact Except.noConfusion h
  injection h with h
  subst h
  exact ⟨not_not.mp ‹¬s.fund.stage ≠ FundStage.Trading›, rfl, Int.not_lt.mp ‹¬now < s.fund.trading_end_ts›, rfl⟩

theorem end_trading_err_inv {s : World} {now : Int} {e : FundError}
    (h : end_trading s now = .error e) :
    (s.fund.stage ≠ FundStage.Trading ∧ e = FundError.InvalidStage)
    ∨ (s.fund.stage = FundStage.Trading ∧ now < s.fund.trading_end_ts
        ∧ e = FundError.TradingNotEnded) := by
  unfold end_trading at h
  repeat' split at h
  any_goals exact Except.noConfusion h
  · injection h with h
    exact Or.inl ⟨‹_›, h.symm⟩
  · injection h with h
    exact Or.inr ⟨not_not.mp ‹¬s.fund.stage ≠ FundStage.Trading›, ‹_›, h.symm⟩

theorem finalize_close_ok_inv {s : World} {s' : World}
    (h : finalize_close s = .ok s') :
    s.fund.stage = FundStage.Settlement ∧ s'.fund.stage = FundStage.Closed
    ∧ s'.requests = s.requests := by
  unfold finalize_close at h
  dsimp only at h
  repeat' split at h
  any_goals exact Except.noConfusion h
  all_goals injection h with h
  all_goals subst h
  all_goals exact ⟨not_not.mp ‹¬s.fund.stage ≠ FundStage.Settlement›, rfl, rfl⟩

theorem finalize_close_err_inv {s : World} {e : FundError}
    (h : finalize_close s = .error e) :
    s.fund.stage ≠ FundStage.Settlement ∧ e = FundError.InvalidStage := by
  unfold finalize_close at h
  dsimp only at h
  repeat' split at h
  any_goals exact Except.noConfusion h
  injection h with h
  exact ⟨‹_›, h.symm⟩

theorem redeem_after_fee_ok_inv {s : World} {shares : Nat} {s' : World}
    (h : redeem_after_fee s shares = .ok s') :
    s'.fund.stage = s.fund.stage ∧ s'.requests = s.requests
    ∧ s'.manager_fee_usdc = s.manager_fee_usdc
    ∧ s'.fund.perf_fee_paid = s.fund.perf_fee_paid
    ∧ s'.fund.perf_fee_due_usdc = s.fund.perf_fee_due_usdc
    ∧ s'.investor_usdc = s.investor_usdc + s.fund.usdc_for_shares shares s.vault_usdc := by
  unfold redeem_after_fee at h
  dsimp only at h
  repeat' split at h
  any_goals exact Except.noConfusion h
  injection h with h
  subst h
  exact ⟨rfl, rfl, rfl, rfl, rfl, rfl⟩

theorem redeem_ok_inv {s : World} {shares : Nat} {s' : World}
    (h : redeem s shares = .ok s') :
    s'.fund.stage = s.fund.stage ∧ s'.requests = s.requests := by
  unfold redeem at h
  repeat' split at h
  any_goals exact Except.noConfusion h
  all_goals
    rcases redeem_after_fee_ok_inv h with ⟨h1, h2, -⟩
  all_goals exact ⟨h1, h2⟩

theorem redeem_ok_fee {s : World} {shares : Nat} {s' : World}
    (h : redeem s shares = .ok s') :
    s'.fund.perf_fee_due_usdc = s.fund.perf_fee_due_usdc
    ∧ (s.fund.perf_fee_paid = true →
        s'.fund.perf_fee_paid = true ∧ s'.manager_fee_usdc = s.manager_fee_usdc)
    ∧ (s.fund.perf_fee_paid = false → 0 < s.fund.perf_fee_due_usdc →
        s'.fund.perf_fee_paid = true
        ∧ s'.manager_fee_usdc = s.manager_fee_usdc + s.fund.perf_fee_due_usdc
        ∧ s'.investor_usdc = s.investor_usdc
            + s.fund.usdc_for_shares shares (s.vault_usdc - s.fund.perf_fee_due_usdc))
    ∧ (s.fund.perf_fee_paid = false → s.fund.perf_fee_due_usdc = 0 →
        s'.fund.perf_fee_paid = false ∧ s'.manager_fee_usdc = s.manager_fee_usdc) := by
  unfold redeem at h
  repeat' split at h
  any_goals exact Except.noConfusion h
  · -- lazy fee payment path
    rcases redeem_after_fee_ok_inv h with ⟨-, -, hm, hp, hd, hi⟩
    rename_i hc _
    refine ⟨hd, ?_, ?_, ?_⟩
    · intro ht
      rw [ht] at hc
      exact absurd hc.2 (by simp)
    · intro _ _
      exact ⟨hp, hm, hi⟩
    · intro _ h0
      exact absurd h0 (Nat.pos_iff_ne_zero.mp hc.1)
  · -- fee already paid or none due
    rcases redeem_after_fee_ok_inv h with ⟨-, -, hm, hp, hd, -⟩
    rename_i hc
    refine ⟨hd, ?_, ?_, ?_⟩
    · intro ht
      exact ⟨hp.trans ht, hm⟩
    · intro hf hdue
      exact absurd ⟨hdue, hf⟩ hc
    · intro hf _
      exact ⟨hp.trans hf, hm⟩

theorem applyRedeem_inv (s : World) (sh : Nat) :
    (applyRedeem s sh).fund.perf_fee_due_usdc = s.fund.perf_fee_due_usdc
    ∧ (s.fund.perf_fee_paid = true →
        (applyRedeem s sh).fund.perf_fee_paid = true
        ∧ (applyRedeem s sh).manager_fee_usdc = s.manager_fee_usdc)
    ∧ (s.fund.perf_fee_paid = false →
        ((applyRedeem s sh).fund.perf_fee_paid = false
          ∧ (applyRedeem s sh).manager_fee_usdc = s.manager_fee_usdc)
        ∨ ((applyRedeem s sh).fund.perf_fee_paid = true
          ∧ (applyRedeem s sh).manager_fee_usdc
              = s.manager_fee_usdc + s.fund.perf_fee_due_usdc)) := by
  unfold applyRedeem
  cases hr : redeem s sh with
  | error e => exact ⟨rfl, fun ht => ⟨ht, rfl⟩, fun hf => Or.inl ⟨hf, rfl⟩⟩
  | ok s2 =>
    rcases redeem_ok_fee hr with ⟨hd, htt, hft, hf0⟩
    refine ⟨hd, htt, fun hf => ?_⟩
    cases Nat.eq_zero_or_pos s.fund.perf_fee_due_usdc with
    | inl h0 => exact Or.inl (hf0 hf h0)
    | inr hpos => exact Or.inr ⟨(hft hf hpos).1, (hft hf hpos).2.1⟩

theorem runRedeems_cons (s : World) (a : Nat) (l : List Nat) :
    runRedeems s (a :: l) = runRedeems (applyRedeem s a) l := rfl

theorem runRedeems_due (s : World) (l : List Nat) :
    (runRedeems s l).fund.perf_fee_due_usdc = s.fund.perf_fee_due_usdc := by
  induction l generalizing s with
  | nil => rfl
  | cons a l ih => exact (ih (applyRedeem s a)).trans (applyRedeem_inv s a).1

theorem runRedeems_paid_true (s : World) (l : List Nat)
    (h : s.fund.perf_fee_paid = true) :
    (runRedeems s l).fund.perf_fee_paid = true
    ∧ (runRedeems s l).manager_fee_usdc = s.manager_fee_usdc := by
  induction l generalizing s with
  | nil => exact ⟨h, rfl⟩
  | cons a l ih =>
    rcases (applyRedeem_inv s a).2.1 h with ⟨hp, hm⟩
    rcases ih (applyRedeem s a) hp with ⟨h1, h2⟩
    exact ⟨h1, h2.trans hm⟩

theorem runRedeems_paid_false (s : World) (l : List Nat)
    (h : s.fund.perf_fee_paid = false) :
    ((runRedeems s l).fund.perf_fee_paid = false
      ∧ (runRedeems s l).manager_fee_usdc = s.manager_fee_usdc)
    ∨ ((runRedeems s l).fund.perf_fee_paid = true
      ∧ (runRedeems s l).manager_fee_usdc
          = s.manager_fee_usdc + s.fund.perf_fee_due_usdc) := by
  induction l generalizing s with
  | nil => exact Or.inl ⟨h, rfl⟩
  | cons a l ih =>
    rcases (applyRedeem_inv s a).2.2 h with ⟨hp, hm⟩ | ⟨hp, hm⟩
    · rcases ih (applyRedeem s a) hp with ⟨h1, h2⟩ | ⟨h1, h2⟩
      · exact Or.inl ⟨h1, h2.trans hm⟩
      · refine Or.inr ⟨h1, ?_⟩
        rw [runRedeems_cons, h2, hm, (applyRedeem_inv s a).1]
    · rcases runRedeems_paid_true (applyRedeem s a) l hp with ⟨h1, h2⟩
      exact Or.inr ⟨h1, h2.trans hm⟩

theorem process_single_eq {s : World} {now : Int} {idx : Nat} {r : WithdrawalRequest}
    (hget : s.requests.get? idx = some (some r)) :
    process_single s now idx
      = if ¬ (s.fund.stage = FundStage.Trading ∨ s.fund.stage = FundStage.Settlement) then
          .error .InvalidStage
        else process_request s now idx r := by
  unfold process_single
  rw [hget]

theorem process_request_frame {s : World} {now : Int} {idx : Nat}
    {r : WithdrawalRequest} {s' : World}
    (h : process_request s now idx r = .ok s')
    (hget : s.requests.get? idx = some (some r)) :
    s'.investor_shares = s.investor_shares
    ∧ s'.share_supply = s.share_supply
    ∧ s'.manager_fee_usdc = s.manager_fee_usdc
    ∧ s'.vault_usdc ≤ s.vault_usdc
    ∧ s'.investor_usdc = s.investor_usdc + (s.vault_usdc - s'.vault_usdc)
    ∧ s'.fund = { s.fund with
        total_shares := s'.fund.total_shares,
        pending_withdrawal_shares := s'.fund.pending_withdrawal_shares,
        last_epoch_ts := s'.fund.last_epoch_ts }
    ∧ (∀ j, j ≠ idx → s'.requests.get? j = s.requests.get? j)
    ∧ (∃ r', s'.requests.get? idx = some (some r')
        ∧ r'.shares_requested = r.shares_requested
        ∧ r'.nav_per_share_at_request = r.nav_per_share_at_request
        ∧ r'.requested_at = r.requested_at) := by
  have hlt : idx < s.requests.length := by
    rcases List.get?_eq_some.mp hget with ⟨hl, -⟩
    exact hl
  unfold process_request at h
  dsimp only at h
  repeat' split at h
  any_goals exact Except.noConfusion h
  all_goals injection h with h
  all_goals subst h
  all_goals refine ⟨rfl, rfl, rfl, ?_, ?_, rfl, ?_, ?_⟩
  all_goals first
    | exact Nat.le_refl _
    | exact Nat.sub_le _ _
    | rw [Nat.sub_sub_self (min_le_right _ _)]
    | exact ⟨r, hget, rfl, rfl, rfl⟩
    | exact ⟨_, List.get?_set_eq_of_lt _ hlt, rfl, rfl, rfl⟩
    | (intro j hj
       first
         | rfl
         | exact List.get?_set_ne _ _ (Ne.symm hj))
    | simp

theorem process_single_frame {s : World} {now : Int} {idx : Nat} {s' : World}
    (h : process_single s now idx = .ok s') :
    s'.investor_shares = s.investor_shares
    ∧ s'.share_supply = s.share_supply
    ∧ s'.manager_fee_usdc = s.manager_fee_usdc
    ∧ s'.vault_usdc ≤ s.vault_usdc
    ∧ s'.investor_usdc = s.investor_usdc + (s.vault_usdc - s'.vault_usdc)
    ∧ s'.fund = { s.fund with
        total_shares := s'.fund.total_shares,
        pending_withdrawal_shares := s'.fund.pending_withdrawal_shares,
        last_epoch_ts := s'.fund.last_epoch_ts }
    ∧ (∀ j, j ≠ idx → s'.requests.get? j = s.requests.get? j)
    ∧ (∀ r, s.requests.get? idx = some (some r) →
        ∃ r', s'.requests.get? idx = some (some r')
          ∧ r'.shares_requested = r.shares_requested
          ∧ r'.nav_per_share_at_request = r.nav_per_share_at_request
          ∧ r'.requested_at = r.requested_at) := by
  unfold process_single at h
  split at h
  · exact Except.noConfusion h
  · cases hget : s.requests.get? idx with
    | none => rw [hget] at h; exact Except.noConfusion h
    | some o =>
      cases o with
      | none => rw [hget] at h; exact Except.noConfusion h
      | some r0 =>
        rw [hget] at h
        rcases process_request_frame h hget with
          ⟨h1, h2, h3, h4, h5, h6, h7, r', h8, h9, h10, h11⟩
        refine ⟨h1, h2, h3, h4, h5, h6, h7, ?_⟩
        intro r hr
        have hrr : r = r0 := (Option.some.inj (Option.some.inj hr)).symm
        subst hrr
        exact ⟨r', h8, h9, h10, h11⟩

theorem process_request_run {s : World} {now : Int} (idx : Nat) {r : WithdrawalRequest}
    (hstatus : r.status = RequestStatus.Pending ∨ r.status = RequestStatus.PartiallyFilled)
    (hgate : s.fund.last_epoch_ts + s.fund.epoch_interval_secs ≤ now
      ∨ s.fund.stage = FundStage.Settlement)
    (hrem : 0 < r.shares_remaining) :
    process_request s now idx r =
      if min (u64cast (r.shares_remaining * r.nav_per_share_at_request / 1000000)) s.vault_usdc = 0
          ∨ (if 0 < r.nav_per_share_at_request then
              u64cast ((min (u64cast (r.shares_remaining * r.nav_per_share_at_request / 1000000))
                s.vault_usdc) * 1000000 / r.nav_per_share_at_request) else 0) = 0 then
        .ok s
      else
        if r.shares_filled + (if 0 < r.nav_per_share_at_request then
            u64cast ((min (u64cast (r.shares_remaining * r.nav_per_share_at_request / 1000000))
              s.vault_usdc) * 1000000 / r.nav_per_share_at_request) else 0) < U64 then
          if r.usdc_received + min (u64cast (r.shares_remaining * r.nav_per_share_at_request / 1000000))
              s.vault_usdc < U64 then
            .ok { s with
              vault_usdc := s.vault_usdc
                - min (u64cast (r.shares_remaining * r.nav_per_share_at_request / 1000000)) s.vault_usdc,
              investor_usdc := s.investor_usdc
                + min (u64cast (r.shares_remaining * r.nav_per_share_at_request / 1000000)) s.vault_usdc,
              requests := s.requests.set idx (some { r with
                shares_filled := r.shares_filled + (if 0 < r.nav_per_share_at_request then
                  u64cast ((min (u64cast (r.shares_remaining * r.nav_per_share_at_request / 1000000))
                    s.vault_usdc) * 1000000 / r.nav_per_share_at_request) else 0),
                usdc_received := r.usdc_received
                  + min (u64cast (r.shares_remaining * r.nav_per_share_at_request / 1000000)) s.vault_usdc,
                status := if r.shares_requested ≤ r.shares_filled + (if 0 < r.nav_per_share_at_request then
                    u64cast ((min (u64cast (r.shares_remaining * r.nav_per_share_at_request / 1000000))
                      s.vault_usdc) * 1000000 / r.nav_per_share_at_request) else 0) then
                    RequestStatus.Completed
                  else RequestStatus.PartiallyFilled }),
              fund := { s.fund with
                total_shares := s.fund.total_shares - (if 0 < r.nav_per_share_at_request then
                  u64cast ((min (u64cast (r.shares_remaining * r.nav_per_share_at_request / 1000000))
                    s.vault_usdc) * 1000000 / r.nav_per_share_at_request) else 0),
                pending_withdrawal_shares := s.fund.pending_withdrawal_shares
                  - (if 0 < r.nav_per_share_at_request then
                    u64cast ((min (u64cast (r.shares_remaining * r.nav_per_share_at_request / 1000000))
                      s.vault_usdc) * 1000000 / r.nav_per_share_at_request) else 0),
                last_epoch_ts := now } }
          else .error .MathOverflow
        else .error .MathOverflow := by
  unfold process_request
  rw [if_neg (not_not_intro hstatus), if_neg (not_not_intro hgate),
    if_neg (Nat.pos_iff_ne_zero.mp hrem)]

/-- C3: a processing call on an active request (status Pending or
PartiallyFilled, positive shares remaining, gated by an elapsed epoch
or the Settlement stage) pays `payout = min(floor(shares_remaining *
nav_per_share_at_request / 1_000_000), vault_balance)`, back-converts it
to `shares_to_process = floor(payout * 1_000_000 /
nav_per_share_at_request)`, decreases `total_shares` and
`pending_withdrawal_shares` by exactly `shares_to_process` (not by
`shares_remaining`), stamps `last_epoch_ts = now`, and when the payout
or the back-converted share count is zero it succeeds with no state
change at all. -/
theorem claim_C3 (s : World) (now : Int) (idx : Nat) (r : WithdrawalRequest)
    (payout stp : Nat)
    (hget : s.requests.get? idx = some (some r))
    (hstage : s.fund.stage = FundStage.Trading ∨ s.fund.stage = FundStage.Settlement)
    (hstatus : r.status = RequestStatus.Pending ∨ r.status = RequestStatus.PartiallyFilled)
    (hrem : 0 < r.shares_remaining)
    (hgate : s.fund.last_epoch_ts + s.fund.epoch_interval_secs ≤ now
      ∨ s.fund.stage = FundStage.Settlement)
    (hnw : r.shares_remaining * r.nav_per_share_at_request / 1000000 < U64)
    (hfr : r.shares_filled ≤ r.shares_requested)
    (hrq : r.shares_requested < U64)
    (hur : r.usdc_received + s.vault_usdc < U64)
    (hpend : r.shares_remaining ≤ s.fund.pending_withdrawal_shares)
    (hpt : s.fund.pending_withdrawal_shares ≤ s.fund.total_shares)
    (hpayout : payout = min (r.shares_remaining * r.nav_per_share_at_request / 1000000)
      s.vault_usdc)
    (hstp : stp = payout * 1000000 / r.nav_per_share_at_request) :
    (payout = 0 ∨ stp = 0 → process_single s now idx = .ok s)
    ∧ (0 < payout → 0 < stp →
        process_single s now idx = .ok { s with
          vault_usdc := s.vault_usdc - payout,
          investor_usdc := s.investor_usdc + payout,
          requests := s.requests.set idx (some { r with
            shares_filled := r.shares_filled + stp,
            usdc_received := r.usdc_received + payout,
            status := if r.shares_requested ≤ r.shares_filled + stp then
                RequestStatus.Completed
              else RequestStatus.PartiallyFilled }),
          fund := { s.fund with
            total_shares := s.fund.total_shares - stp,
            pending_withdrawal_shares := s.fund.pending_withdrawal_shares - stp,
            last_epoch_ts := now } }
        ∧ stp ≤ s.fund.pending_withdrawal_shares
        ∧ stp ≤ s.fund.total_shares) := by
  have hrun := process_request_run idx hstatus hgate hrem
  have hcast : u64cast (r.shares_remaining * r.nav_per_share_at_request / 1000000)
      = r.shares_remaining * r.nav_per_share_at_request / 1000000 :=
    u64cast_eq_of_lt hnw
  rw [hcast] at hrun
  rw [process_single_eq hget, if_neg (not_not_intro hstage), hrun]
  by_cases hnav : 0 < r.nav_per_share_at_request
  · -- positive locked rate
    have hple : payout ≤ r.shares_remaining * r.nav_per_share_at_request / 1000000 := by
      rw [hpayout]
      exact min_le_left _ _
    have hsle : stp ≤ r.shares_remaining := by
      rw [hstp]
      exact payout_shares_le hnav hple
    have hstpcast : u64cast (min (r.shares_remaining * r.nav_per_share_at_request / 1000000)
        s.vault_usdc * 1000000 / r.nav_per_share_at_request)
        = payout * 1000000 / r.nav_per_share_at_request := by
      rw [← hpayout]
      apply u64cast_eq_of_lt
      calc payout * 1000000 / r.nav_per_share_at_request ≤ r.shares_remaining :=
            payout_shares_le hnav hple
        _ ≤ r.shares_requested := Nat.sub_le _ _
        _ < U64 := hrq
    rw [if_pos hnav, hstpcast, ← hstp, ← hpayout]
    constructor
    · intro hz
      rw [if_pos hz]
    · intro hp hs
      have hnz : ¬ (payout = 0 ∨ stp = 0) := by
        rintro (h0 | h0)
        · exact absurd h0 (Nat.pos_iff_ne_zero.mp hp)
        · exact absurd h0 (Nat.pos_iff_ne_zero.mp hs)
      have hfill : r.shares_filled + stp < U64 := by
        have h1 : r.shares_filled + stp ≤ r.shares_requested := by
          have h2 := Nat.add_le_add_left hsle r.shares_filled
          rwa [WithdrawalRequest.shares_remaining, Nat.add_sub_cancel' hfr] at h2
        exact Nat.lt_of_le_of_lt h1 hrq
      have hrecv : r.usdc_received + payout < U64 := by
        have h1 : payout ≤ s.vault_usdc := by
          rw [hpayout]
          exact min_le_right _ _
        exact Nat.lt_of_le_of_lt (Nat.add_le_add_left h1 _) hur
      rw [if_neg hnz, if_pos hfill, if_pos hrecv]
      refine ⟨rfl, ?_, ?_⟩
      · exact Nat.le_trans hsle hpend
      · exact Nat.le_trans (Nat.le_trans hsle hpend) hpt
  · -- zero locked rate: the payout is necessarily zero
    have hnav0 : r.nav_per_share_at_request = 0 := Nat.eq_zero_of_not_pos hnav
    have hp0 : payout = 0 := by
      rw [hpayout, hnav0]
      simp
    constructor
    · intro _
      rw [if_pos]
      left
      rw [hnav0]
      simp
    · intro hp _
      exact absurd hp0 (Nat.pos_iff_ne_zero.mp hp)

/-- Witness for C3 at `procW`: the 600-share request is paid 525 USDC
(vault-limited) and 525 shares are processed. -/
theorem claim_C3_witness :
    process_single procW 90000 0 = .ok { procW with
      vault_usdc := procW.vault_usdc - 525,
      investor_usdc := procW.investor_usdc + 525,
      requests := procW.requests.set 0 (some { reqR with
        shares_filled := reqR.shares_filled + 525,
        usdc_received := reqR.usdc_received + 525,
        status := if reqR.shares_requested ≤ reqR.shares_filled + 525 then
            RequestStatus.Completed
          else RequestStatus.PartiallyFilled }),
      fund := { procW.fund with
        total_shares := procW.fund.total_shares - 525,
        pending_withdrawal_shares := procW.fund.pending_withdrawal_shares - 525,
        last_epoch_ts := 90000 } }
    ∧ 525 ≤ procW.fund.pending_withdrawal_shares
    ∧ 525 ≤ procW.fund.total_shares :=
  (claim_C3 procW 90000 0 reqR 525 525 (by decide) (by decide) (by decide)
    (by decide) (by decide) (by decide) (by decide) (by decide) (by decide)
    (by decide) (by decide) (by decide) (by decide)).2 (by decide) (by decide)

/-- C1: the NAV round trip never creates value: for positive net
deposit `x` and positive vault balance `V`,
`usdc_for_shares(shares_for_deposit(x, V), V) <= x`; when
`total_shares = 0`, `shares_for_deposit` returns `x` and
`usdc_for_shares` returns `0`. -/
theorem claim_C1 (f : FundState) (x V : Nat) (_hx : 0 < x) (_hV : 0 < V) :
    f.usdc_for_shares (f.shares_for_deposit x V) V ≤ x
    ∧ (f.total_shares = 0 →
        f.shares_for_deposit x V = x
        ∧ f.usdc_for_shares (f.shares_for_deposit x V) V = 0) := by
  constructor
  · unfold FundState.usdc_for_shares FundState.shares_for_deposit
    by_cases h : f.total_shares = 0
    · simp [h]
    · have ht : 0 < f.total_shares := Nat.pos_of_ne_zero h
      rw [if_neg h, if_neg h]
      calc u64cast (u64cast (x * f.total_shares / V) * V / f.total_shares)
          ≤ u64cast (x * f.total_shares / V) * V / f.total_shares := u64cast_le _
        _ ≤ x * f.total_shares / V * V / f.total_shares :=
            Nat.div_le_div_right (Nat.mul_le_mul_right V (u64cast_le _))
        _ ≤ x := div_roundtrip_le x f.total_shares V ht
  · intro h
    unfold FundState.usdc_for_shares FundState.shares_for_deposit
    simp [h]

/-- Witness for C1 at a fund with seven shares outstanding, depositing
10 against a vault balance of 6. -/
theorem claim_C1_witness :
    fC1.usdc_for_shares (fC1.shares_for_deposit 10 6) 6 ≤ 10
    ∧ (fC1.total_shares = 0 →
        fC1.shares_for_deposit 10 6 = 10
        ∧ fC1.usdc_for_shares (fC1.shares_for_deposit 10 6) 6 = 0) :=
  claim_C1 fC1 10 6 (by decide) (by decide)

/-- C2: across any sequence of redeem calls on a closed fund the
performance fee reaches the manager exactly once: the fee due never
changes; once `perf_fee_paid` is set the manager balance never moves
again; starting unpaid, the manager balance grows by exactly
`perf_fee_due_usdc` when `perf_fee_paid` ends up set and by nothing
otherwise; and the first successful redeem with a positive unpaid fee
transfers exactly the fee, sets `perf_fee_paid`, and computes the
redeemer's own payout from the vault balance re-read after that
transfer. -/
theorem claim_C2 (s : World) (l : List Nat) :
    (runRedeems s l).fund.perf_fee_due_usdc = s.fund.perf_fee_due_usdc
    ∧ (s.fund.perf_fee_paid = true →
        (runRedeems s l).manager_fee_usdc = s.manager_fee_usdc
        ∧ (runRedeems s l).fund.perf_fee_paid = true)
    ∧ (s.fund.perf_fee_paid = false →
        (runRedeems s l).manager_fee_usdc = s.manager_fee_usdc
          + (if (runRedeems s l).fund.perf_fee_paid then s.fund.perf_fee_due_usdc else 0))
    ∧ (∀ sh s', redeem s sh = .ok s' → 0 < s.fund.perf_fee_due_usdc →
        s.fund.perf_fee_paid = false →
        s'.manager_fee_usdc = s.manager_fee_usdc + s.fund.perf_fee_due_usdc
        ∧ s'.fund.perf_fee_paid = true
        ∧ s'.investor_usdc = s.investor_usdc
            + s.fund.usdc_for_shares sh (s.vault_usdc - s.fund.perf_fee_due_usdc))
    ∧ (∀ sh s', redeem s sh = .ok s' → s.fund.perf_fee_paid = true →
        s'.manager_fee_usdc = s.manager_fee_usdc ∧ s'.fund.perf_fee_paid = true) := by
  refine ⟨runRedeems_due s l, ?_, ?_, ?_, ?_⟩
  · intro h
    rcases runRedeems_paid_true s l h with ⟨h1, h2⟩
    exact ⟨h2, h1⟩
  · intro h
    rcases runRedeems_paid_false s l h with ⟨h1, h2⟩ | ⟨h1, h2⟩
    · rw [h1, h2]
      simp
    · rw [h1, h2]
      simp
  · intro sh s' hok hdue hpaid
    rcases (redeem_ok_fee hok).2.2.1 hpaid hdue with ⟨h1, h2, h3⟩
    exact ⟨h2, h1, h3⟩
  · intro sh s' hok hpaid
    rcases (redeem_ok_fee hok).2.1 hpaid with ⟨h1, h2⟩
    exact ⟨h2, h1⟩

/-- Witness for C2 at `closedW` (fee 50 due, unpaid) redeeming 40
shares: the manager balance ends up exactly 50 higher. -/
theorem claim_C2_witness :
    (runRedeems closedW [40]).manager_fee_usdc = closedW.manager_fee_usdc
      + (if (runRedeems closedW [40]).fund.perf_fee_paid then
          closedW.fund.perf_fee_due_usdc else 0) :=
  (claim_C2 closedW [40]).2.2.1 (by decide)

theorem nav_eq_of_req_eq {s s' : World} {idx : Nat} {r r' : WithdrawalRequest}
    (hreq : s'.requests = s.requests)
    (hr : s.requests.get? idx = some (some r))
    (hr' : s'.requests.get? idx = some (some r')) :
    r'.nav_per_share_at_request = r.nav_per_share_at_request := by
  rw [hreq, hr] at hr'
  have h2 := Option.some.inj (Option.some.inj hr')
  rw [← h2]

theorem step_preserves_nav {s : World} {now : Int} (op : Op) {s' : World} {idx : Nat}
    {r r' : WithdrawalRequest}
    (hstep : step s now op = .ok s')
    (hr : s.requests.get? idx = some (some r))
    (hr' : s'.requests.get? idx = some (some r')) :
    r'.nav_per_share_at_request = r.nav_per_share_at_request := by
  cases op with
  | deposit a =>
    exact nav_eq_of_req_eq (deposit_ok_inv hstep).2 hr hr'
  | withdrawOpen a =>
    exact nav_eq_of_req_eq (withdraw_open_ok_inv hstep).2 hr hr'
  | startTrading =>
    exact nav_eq_of_req_eq (start_trading_ok_inv hstep).2.2.2 hr hr'
  | executeTrade a =>
    exact nav_eq_of_req_eq (congrArg World.requests (execute_trade_ok_inv hstep)) hr hr'
  | withdrawEarly a =>
    exact nav_eq_of_req_eq (withdraw_early_ok_inv hstep).2 hr hr'
  | requestWithdrawal a =>
    have hlt : idx < s.requests.length := by
      rcases List.get?_eq_some.mp hr with ⟨hl, -⟩
      exact hl
    have hreq := (request_withdrawal_ok_inv hstep).2.2.2
    rw [hreq, List.get?_append hlt, hr] at hr'
    have h2 := Option.some.inj (Option.some.inj hr')
    rw [← h2]
  | cancelWithdrawal k =>
    rcases (cancel_withdrawal_ok_inv hstep).2 with ⟨i, hreq⟩
    by_cases hi : i = idx
    · subst hi
      rw [hreq, List.get?_set_eq none i s.requests, hr] at hr'
      exact Option.noConfusion (Option.some.inj hr')
    · rw [hreq, List.get?_set_ne _ _ hi, hr] at hr'
      have h2 := Option.some.inj (Option.some.inj hr')
      rw [← h2]
  | processSingle k =>
    rcases process_single_frame hstep with ⟨-, -, -, -, -, -, h7, h8⟩
    by_cases hk : idx = k
    · subst hk
      rcases h8 r hr with ⟨r2, hg2, -, hnav2, -⟩
      rw [hg2] at hr'
      have h2 := Option.some.inj (Option.some.inj hr')
      rw [← h2, hnav2]
    · rw [h7 idx hk, hr] at hr'
      have h2 := Option.some.inj (Option.some.inj hr')
      rw [← h2]
  | triggerEpoch =>
    exact nav_eq_of_req_eq (trigger_epoch_ok_inv hstep).2 hr hr'
  | endTrading =>
    exact nav_eq_of_req_eq (end_trading_ok_inv hstep).2.2.2 hr hr'
  | finalizeClose =>
    exact nav_eq_of_req_eq (finalize_close_ok_inv hstep).2.2 hr hr'
  | redeemShares a =>
    exact nav_eq_of_req_eq (redeem_ok_inv hstep).2 hr hr'

/-- C4: `request_withdrawal` locks
`nav_per_share_at_request = floor(vault_balance * 1_000_000 /
total_shares)` (1_000_000 when `total_shares = 0`) in the record it
appends at index `pending_request_count`; no operation ever changes
the locked field of a surviving request; and a processing call
converts shares at that locked rate regardless of the fund's current
`total_shares` (its observable effects are identical for every value
of `total_shares`). -/
theorem claim_C4 :
    (∀ s now shares s', request_withdrawal s now shares = .ok s' →
      s'.requests.get? s.requests.length = some (some (mkRequest s now shares))
      ∧ (s.vault_usdc * 1000000 / s.fund.total_shares < U64 →
          (mkRequest s now shares).nav_per_share_at_request
            = if 0 < s.fund.total_shares then s.vault_usdc * 1000000 / s.fund.total_shares
              else 1000000))
    ∧ (∀ s now op s' idx r r', step s now op = .ok s' →
        s.requests.get? idx = some (some r) →
        s'.requests.get? idx = some (some r') →
        r'.nav_per_share_at_request = r.nav_per_share_at_request)
    ∧ (∀ s now idx t,
        (process_single { s with fund := { s.fund with total_shares := t } } now idx).map
            (fun w => (w.investor_usdc, w.vault_usdc, w.requests))
          = (process_single s now idx).map
              (fun w => (w.investor_usdc, w.vault_usdc, w.requests))) := by
  refine ⟨?_, ?_, ?_⟩
  · intro s now shares s' h
    have hreq := (request_withdrawal_ok_inv h).2.2.2
    constructor
    · rw [hreq]
      exact List.get?_concat_length _ _
    · intro hw
      unfold mkRequest lockedNav
      by_cases ht : 0 < s.fund.total_shares
      · rw [if_pos ht, if_pos ht]
        exact u64cast_eq_of_lt hw
      · rw [if_neg ht, if_neg ht]
  · intro s now op s' idx r r' hstep hr hr'
    exact step_preserves_nav op hstep hr hr'
  · intro s now idx t
    unfold process_single process_request
    dsimp only
    repeat' split
    any_goals rfl

/-- Witness for C4: the processing step from `procW` to `procW2`
leaves the locked NAV of the request untouched. -/
theorem claim_C4_witness :
    reqDone.nav_per_share_at_request = reqR.nav_per_share_at_request :=
  claim_C4.2.1 procW 90000 (Op.processSingle 0) procW2 0 reqR reqDone
    (by rfl) (by rfl) (by rfl)

/-- C5: the stage advances only along
`Open -> Trading -> Settlement -> Closed`: every successful operation
leaves the stage fixed or advances it by exactly one step;
`start_trading` succeeds only from Open once `trading_start_ts` is
reached and otherwise fails with `InvalidStage`/`TradingNotStarted`;
`end_trading` succeeds only from Trading once `trading_end_ts` is
reached and otherwise fails with `InvalidStage`/`TradingNotEnded`;
`finalize_close` succeeds only from Settlement and otherwise fails
with `InvalidStage`; no other operation changes the stage. -/
theorem claim_C5 :
    (∀ s now op s', step s now op = .ok s' →
      stageIdx s.fund.stage ≤ stageIdx s'.fund.stage
      ∧ stageIdx s'.fund.stage ≤ stageIdx s.fund.stage + 1
      ∧ (op = Op.startTrading → s.fund.stage = FundStage.Open
          ∧ s'.fund.stage = FundStage.Trading ∧ s.fund.trading_start_ts ≤ now)
      ∧ (op = Op.endTrading → s.fund.stage = FundStage.Trading
          ∧ s'.fund.stage = FundStage.Settlement ∧ s.fund.trading_end_ts ≤ now)
      ∧ (op = Op.finalizeClose → s.fund.stage = FundStage.Settlement
          ∧ s'.fund.stage = FundStage.Closed)
      ∧ (op ≠ Op.startTrading → op ≠ Op.endTrading → op ≠ Op.finalizeClose →
          s'.fund.stage = s.fund.stage))
    ∧ (∀ s now e, step s now Op.startTrading = .error e →
        (s.fund.stage ≠ FundStage.Open ∧ e = FundError.InvalidStage)
        ∨ (s.fund.stage = FundStage.Open ∧ now < s.fund.trading_start_ts
            ∧ e = FundError.TradingNotStarted))
    ∧ (∀ s now e, step s now Op.endTrading = .error e →
        (s.fund.stage ≠ FundStage.Trading ∧ e = FundError.InvalidStage)
        ∨ (s.fund.stage = FundStage.Trading ∧ now < s.fund.trading_end_ts
            ∧ e = FundError.TradingNotEnded))
    ∧ (∀ s now e, step s now Op.finalizeClose = .error e →
        s.fund.stage ≠ FundStage.Settlement ∧ e = FundError.InvalidStage) := by
  refine ⟨?_, ?_, ?_, ?_⟩
  · intro s now op s' h
    cases op with
    | deposit a =>
      have hst := (deposit_ok_inv h).1
      rw [hst]
      exact ⟨Nat.le_refl _, Nat.le_succ _, fun hc => Op.noConfusion hc,
        fun hc => Op.noConfusion hc, fun hc => Op.noConfusion hc, fun _ _ _ => rfl⟩
    | withdrawOpen a =>
      have hst := (withdraw_open_ok_inv h).1
      rw [hst]
      exact ⟨Nat.le_refl _, Nat.le_succ _, fun hc => Op.noConfusion hc,
        fun hc => Op.noConfusion hc, fun hc => Op.noConfusion hc, fun _ _ _ => rfl⟩
    | startTrading =>
      rcases start_trading_ok_inv h with ⟨h1, h2, h3, -⟩
      rw [h1, h2]
      exact ⟨by decide, by decide, fun _ => ⟨rfl, rfl, h3⟩,
        fun hc => Op.noConfusion hc, fun hc => Op.noConfusion hc,
        fun hc _ _ => absurd rfl hc⟩
    | executeTrade a =>
      have hst : s'.fund.stage = s.fund.stage := by rw [execute_trade_ok_inv h]
      rw [hst]
      exact ⟨Nat.le_refl _, Nat.le_succ _, fun hc => Op.noConfusion hc,
        fun hc => Op.noConfusion hc, fun hc => Op.noConfusion hc, fun _ _ _ => rfl⟩
    | withdrawEarly a =>
      have hst := (withdraw_early_ok_inv h).1
      rw [hst]
      exact ⟨Nat.le_refl _, Nat.le_succ _, fun hc => Op.noConfusion hc,
        fun hc => Op.noConfusion hc, fun hc => Op.noConfusion hc, fun _ _ _ => rfl⟩
    | requestWithdrawal a =>
      have hst := (request_withdrawal_ok_inv h).1
      rw [hst]
      exact ⟨Nat.le_refl _, Nat.le_succ _, fun hc => Op.noConfusion hc,
        fun hc => Op.noConfusion hc, fun hc => Op.noConfusion hc, fun _ _ _ => rfl⟩
    | cancelWithdrawal k =>
      have hst := (cancel_withdrawal_ok_inv h).1
      rw [hst]
      exact ⟨Nat.le_refl _, Nat.le_succ _, fun hc => Op.noConfusion hc,
        fun hc => Op.noConfusion hc, fun hc => Op.noConfusion hc, fun _ _ _ => rfl⟩
    | processSingle k =>
      have hst : s'.fund.stage = s.fund.stage := by
        rw [(process_single_frame h).2.2.2.2.2.1]
      rw [hst]
      exact ⟨Nat.le_refl _, Nat.le_succ _, fun hc => Op.noConfusion hc,
        fun hc => Op.noConfusion hc, fun hc => Op.noConfusion hc, fun _ _ _ => rfl⟩
    | triggerEpoch =>
      have hst := (trigger_epoch_ok_inv h).1
      rw [hst]
      exact ⟨Nat.le_refl _, Nat.le_succ _, fun hc => Op.noConfusion hc,
        fun hc => Op.noConfusion hc, fun hc => Op.noConfusion hc, fun _ _ _ => rfl⟩
    | endTrading =>
      rcases end_trading_ok_inv h with ⟨h1, h2, h3, -⟩
      rw [h1, h2]
      exact ⟨by decide, by decide, fun hc => Op.noConfusion hc,
        fun _ => ⟨rfl, rfl, h3⟩, fun hc => Op.noConfusion hc,
        fun _ hc _ => absurd rfl hc⟩
    | finalizeClose =>
      rcases finalize_close_ok_inv h with ⟨h1, h2, -⟩
      rw [h1, h2]
      exact ⟨by decide, by decide, fun hc => Op.noConfusion hc,
        fun hc => Op.noConfusion hc, fun _ => ⟨rfl, rfl⟩,
        fun _ _ hc => absurd rfl hc⟩
    | redeemShares a =>
      have hst := (redeem_ok_inv h).1
      rw [hst]
      exact ⟨Nat.le_refl _, Nat.le_succ _, fun hc => Op.noConfusion hc,
        fun hc => Op.noConfusion hc, fun hc => Op.noConfusion hc, fun _ _ _ => rfl⟩
  · intro s now e h
    exact start_trading_err_inv h
  · intro s now e h
    exact end_trading_err_inv h
  · intro s now e h
    exact finalize_close_err_inv h

/-- Witness for C5: `finalize_close` attempted from the Trading stage
fails with the stage-violation error. -/
theorem claim_C5_witness :
    earlyW.fund.stage ≠ FundStage.Settlement
    ∧ FundError.InvalidStage = FundError.InvalidStage :=
  claim_C5.2.2.2 earlyW 0 FundError.InvalidStage (by rfl)

theorem U64_pos : 0 < U64 := by decide

theorem usdc_for_shares_lt_U64 (f : FundState) (shares vault : Nat) :
    f.usdc_for_shares shares vault < U64 := by
  unfold FundState.usdc_for_shares
  split
  · exact U64_pos
  · exact Nat.mod_lt _ U64_pos

theorem mul_bps_div_le (a b : Nat) (hb : b ≤ 10000) : a * b / 10000 ≤ a := by
  calc a * b / 10000 ≤ a * 10000 / 10000 :=
        Nat.div_le_div_right (Nat.mul_le_mul_left a hb)
    _ = a := Nat.mul_div_cancel a (by decide)

/-- C6: `withdraw_early` in Trading with a positive share amount the
investor holds pays `payout = share_value - floor(share_value *
early_exit_fee_bps / 10000)` with `share_value = usdc_for_shares(shares,
vault_balance)`, and succeeds exactly when `vault_balance >= payout +
floor((vault_balance - payout) * liquidity_buffer_bps / 10000)`;
otherwise it fails with `InsufficientBuffer` and, the transaction
aborting, changes no state. -/
theorem claim_C6 (s : World) (shares : Nat)
    (hstage : s.fund.stage = FundStage.Trading)
    (hsh : 0 < shares)
    (hbal : shares ≤ s.investor_shares)
    (hfee : s.fund.early_exit_fee_bps ≤ 10000)
    (hbuf : s.fund.liquidity_buffer_bps ≤ 10000)
    (hv : s.vault_usdc < U64)
    (sv payout minbuf : Nat)
    (hsv : sv = s.fund.usdc_for_shares shares s.vault_usdc)
    (hpay : payout = sv - sv * s.fund.early_exit_fee_bps / 10000)
    (hmb : minbuf = (s.vault_usdc - payout) * s.fund.liquidity_buffer_bps / 10000) :
    (payout + minbuf ≤ s.vault_usdc →
      withdraw_early s shares = .ok { s with
        investor_shares := s.investor_shares - shares,
        share_supply := s.share_supply - shares,
        vault_usdc := s.vault_usdc - payout,
        investor_usdc := s.investor_usdc + payout,
        fund := { s.fund with total_shares := s.fund.total_shares - shares } })
    ∧ (s.vault_usdc < payout + minbuf →
        withdraw_early s shares = .error FundError.InsufficientBuffer) := by
  have hsvlt : s.fund.usdc_for_shares shares s.vault_usdc < U64 :=
    usdc_for_shares_lt_U64 s.fund shares s.vault_usdc
  have hfee_cast :
      u64cast (s.fund.usdc_for_shares shares s.vault_usdc * s.fund.early_exit_fee_bps / 10000)
        = s.fund.usdc_for_shares shares s.vault_usdc * s.fund.early_exit_fee_bps / 10000 :=
    u64cast_eq_of_lt (Nat.lt_of_le_of_lt (mul_bps_div_le _ _ hfee) hsvlt)
  unfold withdraw_early
  rw [if_neg (not_not_intro hstage), if_neg (Nat.pos_iff_ne_zero.mp hsh),
    if_neg (Nat.not_lt.mpr hbal)]
  dsimp only
  unfold FundState.calculate_early_exit_fee FundState.min_buffer_amount
  rw [hfee_cast, ← hsv, ← hpay]
  have hmb_cast : u64cast ((s.vault_usdc - payout) * s.fund.liquidity_buffer_bps / 10000)
      = minbuf := by
    rw [hmb]
    exact u64cast_eq_of_lt
      (Nat.lt_of_le_of_lt (mul_bps_div_le _ _ hbuf) (Nat.lt_of_le_of_lt (Nat.sub_le _ _) hv))
  rw [hmb_cast]
  constructor
  · intro hc
    rw [if_pos hc]
  · intro hc
    rw [if_neg (Nat.not_le.mpr hc)]

/-- Witness for C6 at `earlyW`: exiting 100 of 1000 shares against a
1000-USDC vault pays 95 after the 5% exit fee, and the 10% buffer on
the remaining 905 is covered. -/
theorem claim_C6_witness :
    withdraw_early earlyW 100 = .ok { earlyW with
      investor_shares := earlyW.investor_shares - 100,
      share_supply := earlyW.share_supply - 100,
      vault_usdc := earlyW.vault_usdc - 95,
      investor_usdc := earlyW.investor_usdc + 95,
      fund := { earlyW.fund with total_shares := earlyW.fund.total_shares - 100 } } :=
  (claim_C6 earlyW 100 (by decide) (by decide) (by decide) (by decide) (by decide)
    (by decide) 100 95 90 (by decide) (by decide) (by decide)).1 (by decide)

/-- C7: the spec's invariant `pending_withdrawal_shares <= total_shares`
is violated on a reachable state: an investor holding 1000 shares
queues the same shares twice (request_withdrawal checks the current
share balance but reserves nothing), leaving
`pending_withdrawal_shares = 2000 > total_shares = 1000`.  Every call
in the run succeeds. -/
theorem claim_C7 :
    runOpsE demo0 c7ops = .ok (runOps demo0 c7ops)
    ∧ (runOps demo0 c7ops).fund.total_shares = 1000
    ∧ (runOps demo0 c7ops).fund.pending_withdrawal_shares = 2000
    ∧ (runOps demo0 c7ops).fund.total_shares
        < (runOps demo0 c7ops).fund.pending_withdrawal_shares :=
  ⟨by rfl, by rfl, by rfl, by decide⟩

/-- C8 counterexample: on the reachable state `c8state`, whose request
0 is partially filled (525 of 600 shares, status PartiallyFilled),
`cancel_withdrawal` fails with `WithdrawalRequestInactive` — the
`status == Pending` account constraint fires first — not with the
dedicated `CannotCancelPartialWithdrawal` error the claim names. -/
theorem claim_C8_counterexample :
    runOpsE demo0 c8ops = .ok c8state
    ∧ c8state.requests.get? 0 = some (some reqDone)
    ∧ 0 < reqDone.shares_filled
    ∧ reqDone.status = RequestStatus.PartiallyFilled
    ∧ cancel_withdrawal c8state 0 = .error FundError.WithdrawalRequestInactive
    ∧ FundError.WithdrawalRequestInactive ≠ FundError.CannotCancelPartialWithdrawal :=
  ⟨by rfl, by rfl, by decide, by rfl, by rfl, by decide⟩

/-- C8 (amended): cancelling a request that is not Pending any more —
in particular a partially filled one, which processing has moved to
PartiallyFilled — fails with `WithdrawalRequestInactive` from the
status constraint; the dedicated `CannotCancelPartialWithdrawal` guard
can only fire on a Pending request with `shares_filled > 0`;
cancellation succeeds exactly on a Pending request with
`shares_filled = 0`, decrementing `pending_withdrawal_shares` by
`shares_requested` (saturating) and destroying the record. -/
theorem claim_C8 (s : World) (idx : Nat) (r : WithdrawalRequest)
    (hget : s.requests.get? idx = some (some r)) :
    (r.status ≠ RequestStatus.Pending →
      cancel_withdrawal s idx = .error FundError.WithdrawalRequestInactive)
    ∧ (r.status = RequestStatus.Pending → r.shares_filled ≠ 0 →
        cancel_withdrawal s idx = .error FundError.CannotCancelPartialWithdrawal)
    ∧ (r.status = RequestStatus.Pending → r.shares_filled = 0 →
        cancel_withdrawal s idx = .ok { s with
          requests := s.requests.set idx none,
          fund := { s.fund with
            pending_withdrawal_shares :=
              s.fund.pending_withdrawal_shares - r.shares_requested } }) := by
  unfold cancel_withdrawal
  rw [hget]
  dsimp only
  refine ⟨?_, ?_, ?_⟩
  · intro hs
    rw [if_pos hs]
  · intro hs hf
    rw [if_neg (not_not_intro hs), if_pos hf]
  · intro hs hf
    rw [if_neg (not_not_intro hs), if_neg (not_not_intro hf)]

/-- Witness for the amended C8: cancelling the still-pending request of
`procW` succeeds and returns its 600 shares to the pool. -/
theorem claim_C8_witness :
    cancel_withdrawal procW 0 = .ok { procW with
      requests := procW.requests.set 0 none,
      fund := { procW.fund with
        pending_withdrawal_shares :=
          procW.fund.pending_withdrawal_shares - reqR.shares_requested } } :=
  (claim_C8 procW 0 reqR (by rfl)).2.2 (by rfl) (by rfl)

/-- C9: a successful processing call never touches the investor's share
tokens or the share-mint supply; the manager fee account is untouched;
the investor receives exactly the USDC that left the vault; the fund
changes only `total_shares`, `pending_withdrawal_shares` and
`last_epoch_ts`; only the processed request record changes, and of it
only `shares_filled`, `usdc_received` and `status`. -/
theorem claim_C9 (s : World) (now : Int) (idx : Nat) (s' : World)
    (h : process_single s now idx = .ok s') :
    s'.investor_shares = s.investor_shares
    ∧ s'.share_supply = s.share_supply
    ∧ s'.manager_fee_usdc = s.manager_fee_usdc
    ∧ s'.vault_usdc ≤ s.vault_usdc
    ∧ s'.investor_usdc = s.investor_usdc + (s.vault_usdc - s'.vault_usdc)
    ∧ s'.fund = { s.fund with
        total_shares := s'.fund.total_shares,
        pending_withdrawal_shares := s'.fund.pending_withdrawal_shares,
        last_epoch_ts := s'.fund.last_epoch_ts }
    ∧ (∀ j, j ≠ idx → s'.requests.get? j = s.requests.get? j)
    ∧ (∀ r, s.requests.get? idx = some (some r) →
        ∃ r', s'.requests.get? idx = some (some r')
          ∧ r'.shares_requested = r.shares_requested
          ∧ r'.nav_per_share_at_request = r.nav_per_share_at_request
          ∧ r'.requested_at = r.requested_at) :=
  process_single_frame h

/-- Witness for C9: the processing step from `procW` to `procW2`
leaves the investor's share balance and the mint supply unchanged. -/
theorem claim_C9_witness :
    procW2.investor_shares = procW.investor_shares
    ∧ procW2.share_supply = procW.share_supply := by
  have h := claim_C9 procW 90000 0 procW2 (by rfl)
  exact ⟨h.1, h.2.1⟩

/-- C10: `init_protocol` leaves `max_early_exit_fee_bps`,
`min_buffer_bps` and `default_epoch_interval_secs` at their zeroed
values while setting `max_deposit_fee_bps = 300` and
`max_perf_fee_bps = 3000`; `create_fund` never reads those three
protocol fields (its result is identical for arbitrary values of
them), and every fund it creates carries the constants
`early_exit_fee_bps = 500`, `liquidity_buffer_bps = 1000` and
`epoch_interval_secs = 86400` with no cap check against the protocol
config. -/
theorem claim_C10 :
    (∀ a d m, (init_protocol a d m).max_early_exit_fee_bps = 0
      ∧ (init_protocol a d m).min_buffer_bps = 0
      ∧ (init_protocol a d m).default_epoch_interval_secs = 0
      ∧ (init_protocol a d m).max_deposit_fee_bps = 300
      ∧ (init_protocol a d m).max_perf_fee_bps = 3000)
    ∧ (∀ cfg now nl sl dbps pbps ts te e b i,
        create_fund { cfg with
            max_early_exit_fee_bps := e,
            min_buffer_bps := b,
            default_epoch_interval_secs := i } now nl sl dbps pbps ts te
          = create_fund cfg now nl sl dbps pbps ts te)
    ∧ (∀ cfg now nl sl dbps pbps ts te f,
        create_fund cfg now nl sl dbps pbps ts te = .ok f →
          f.early_exit_fee_bps = 500
          ∧ f.liquidity_buffer_bps = 1000
          ∧ f.epoch_interval_secs = 86400) := by
  refine ⟨fun a d m => ⟨rfl, rfl, rfl, rfl, rfl⟩, fun _ _ _ _ _ _ _ _ _ _ _ => rfl, ?_⟩
  intro cfg now nl sl dbps pbps ts te f h
  unfold create_fund at h
  repeat' split at h
  any_goals exact Except.noConfusion h
  injection h with h
  subst h
  exact ⟨rfl, rfl, rfl⟩

/-- Witness for C10: the fund created with deposit fee 100 bps and
performance fee 2000 bps carries the three constants. -/
theorem claim_C10_witness :
    createdFund.early_exit_fee_bps = 500
    ∧ createdFund.liquidity_buffer_bps = 1000
    ∧ createdFund.epoch_interval_secs = 86400 :=
  claim_C10.2.2 (init_protocol 1 2 3) 0 4 3 100 2000 10 20 createdFund (by rfl)

/-- C3 counterexample: on the reachable state after the first four
calls of `c8ops` the queue holds a 600-share request at locked NAV 1.0
while only 500 shares remain outstanding (an early exit burned shares
that were still queued); processing computes `payout = 525` and
`shares_to_process = 525`, but `total_shares` falls saturating from
500 to 0 — a decrease of 500, not of `shares_to_process`. -/
theorem claim_C3_counterexample :
    (runOps demo0 (c8ops.take 4)).requests.get? 0 = some (some reqR)
    ∧ min (reqR.shares_remaining * reqR.nav_per_share_at_request / 1000000)
        (runOps demo0 (c8ops.take 4)).vault_usdc = 525
    ∧ (525 : Nat) * 1000000 / reqR.nav_per_share_at_request = 525
    ∧ process_single (runOps demo0 (c8ops.take 4)) 90000 0 = .ok c8state
    ∧ (runOps demo0 (c8ops.take 4)).fund.total_shares = 500
    ∧ c8state.fund.total_shares = 0
    ∧ (runOps demo0 (c8ops.take 4)).fund.total_shares ≠ c8state.fund.total_shares + 525 :=
  ⟨by rfl, by rfl, by rfl, by rfl, by rfl, by rfl, by decide⟩

/-- C9 counterexample: a successful processing call also stamps
`last_epoch_ts` (0 to 90000 here), a fund field outside the claim's
list of permitted changes. -/
theorem claim_C9_counterexample :
    process_single procW 90000 0 = .ok procW2
    ∧ procW.fund.last_epoch_ts = 0
    ∧ procW2.fund.last_epoch_ts = 90000
    ∧ procW2.fund.last_epoch_ts ≠ procW.fund.last_epoch_ts :=
  ⟨by rfl, by rfl, by rfl, by decide⟩
